import Mathlib

/-!
Verification development for the SockMaster image pipeline (src/main.py).

The python code builds on the PIL image primitives. The embedding models an
RGBA image as a width, a height and a total pixel function, and reproduces the
integer arithmetic of the Pillow primitives the source calls (MULDIV255 paste
blending, the fixed-point alpha_composite, ImagingBlend truncation). The
`convert` calls of the source are identities here: RGBA buffers are
modelled as `Img`, single-channel (mode L) buffers as `LImg`. File writes
performed by the source (`save`) are returned as an explicit trace of output
paths; console prints are not modelled. The ambient `random` generator is
modelled by caller-supplied streams of draws, and the external
rotate-with-expand primitive is a parameter of the pattern stamper (no claim
depends on its pixel semantics).
-/

/-- An RGBA pixel. Channels are byte values, modelled as unbounded naturals;
`Pixel.Valid` singles out genuine byte pixels. -/
structure Pixel where
  r : Nat
  g : Nat
  b : Nat
  a : Nat
deriving DecidableEq

/-- A pixel is a genuine byte pixel when every channel fits in a byte. -/
def Pixel.Valid (p : Pixel) : Prop :=
  p.r ≤ 255 ∧ p.g ≤ 255 ∧ p.b ≤ 255 ∧ p.a ≤ 255

instance (p : Pixel) : Decidable p.Valid :=
  inferInstanceAs (Decidable (p.r ≤ 255 ∧ p.g ≤ 255 ∧ p.b ≤ 255 ∧ p.a ≤ 255))

/-- An RGBA pixel buffer: a fixed width and height and a total pixel map
(indices outside the rectangle are modelling junk and never constrained). -/
structure Img where
  width : Nat
  height : Nat
  pix : Nat → Nat → Pixel

/-- A single-channel (PIL mode L) pixel buffer, for masks and alpha planes. -/
structure LImg where
  width : Nat
  height : Nat
  pix : Nat → Nat → Nat

/-- Pillow's MULDIV255 macro: rounding division of a * b by 255 computed with
shifts, exactly as in libImaging (ImagingUtils.h). -/
def muldiv255 (a b : Nat) : Nat :=
  ((a * b + 128) >>> 8 + (a * b + 128)) >>> 8

/-- Pillow's SHIFTFORDIV255 macro from AlphaComposite.c. -/
def shiftForDiv255 (t : Nat) : Nat :=
  (t >>> 8 + t) >>> 8

/-- Pillow's BLEND macro used by paste and composite with a mask: the
destination and source bytes are mixed with mask weight m. -/
def blendByte (m dst src : Nat) : Nat :=
  muldiv255 dst (255 - m) + muldiv255 src m

/-- Pillow's CLIP8: clamp an integer into the byte range. -/
def clip8 (i : Int) : Nat :=
  (min 255 (max 0 i)).toNat

/-- Image.new of an RGBA buffer filled with a constant color. -/
def newRGBA (w h : Nat) (c : Pixel) : Img :=
  ⟨w, h, fun _ _ => c⟩

/-- Image.new of a single-channel buffer filled with a constant value. -/
def newL (w h : Nat) (v : Nat) : LImg :=
  ⟨w, h, fun _ _ => v⟩

/-- Model of the external resize primitive on RGBA buffers: output dimensions
are exactly the requested ones and pixels are sampled nearest-neighbour. No
claim depends on the resampling kernel, only on the output size. -/
def resizeRGBA (img : Img) (w h : Nat) : Img :=
  ⟨w, h, fun x y => img.pix (x * img.width / w) (y * img.height / h)⟩

/-- Model of the external resize primitive on single-channel buffers. -/
def resizeL (img : LImg) (w h : Nat) : LImg :=
  ⟨w, h, fun x y => img.pix (x * img.width / w) (y * img.height / h)⟩

/-- The alpha band of an RGBA buffer, as split()[3] / getchannel(3) return it. -/
def splitAlpha (img : Img) : LImg :=
  ⟨img.width, img.height, fun x y => (img.pix x y).a⟩

/-- Image.putalpha: replace the alpha channel of an RGBA buffer. -/
def putalpha (img : Img) (m : LImg) : Img :=
  { img with pix := fun x y => { img.pix x y with a := m.pix x y } }

/-- Byte quantization of a point lookup-table entry p * alpha: the float value
is truncated and clipped into the byte range (the C cast of libImaging). -/
def scaleByte (alpha : ℚ) (p : Nat) : Nat :=
  clip8 ⌊alpha * (p : ℚ)⌋

/-- The point call scaling a single-channel buffer by a float factor, as in
texture.split()[3].point(lambda p: p * alpha) of the source. -/
def pointScale (alpha : ℚ) (m : LImg) : LImg :=
  { m with pix := fun x y => scaleByte alpha (m.pix x y) }

/-- The binarizing point call of the source: 255 if x > 0 else 0. -/
def pointBinarize (m : LImg) : LImg :=
  { m with pix := fun x y => if 0 < m.pix x y then 255 else 0 }

/-- One channel of Pillow's ImagingBlend: float interpolation between the two
inputs followed by truncation to a byte with clipping; the float arithmetic is
modelled exactly over the rationals. -/
def blendChannel (f : ℚ) (c1 c2 : Nat) : Nat :=
  if ((c1 : ℚ) + f * ((c2 : ℚ) - (c1 : ℚ))) ≤ 0 then 0
  else if 255 ≤ ((c1 : ℚ) + f * ((c2 : ℚ) - (c1 : ℚ))) then 255
  else (⌊(c1 : ℚ) + f * ((c2 : ℚ) - (c1 : ℚ))⌋).toNat

/-- Image.blend of two equally sized RGBA buffers with interpolation factor f. -/
def imageBlend (f : ℚ) (im1 im2 : Img) : Img :=
  { width := im1.width, height := im1.height,
    pix := fun x y =>
      ⟨blendChannel f (im1.pix x y).r (im2.pix x y).r,
       blendChannel f (im1.pix x y).g (im2.pix x y).g,
       blendChannel f (im1.pix x y).b (im2.pix x y).b,
       blendChannel f (im1.pix x y).a (im2.pix x y).a⟩ }

/-- ImageEnhance.Brightness(im).enhance(f): Pillow blends the image against a
black degenerate image that carries the original alpha channel, so the RGB
channels are scaled by f and the alpha channel is interpolated with itself. -/
def brightnessEnhance (f : ℚ) (img : Img) : Img :=
  imageBlend f { img with pix := fun x y => ⟨0, 0, 0, (img.pix x y).a⟩ } img

/-- Image.composite(im1, im2, mask): im2 is the background and every channel is
blended towards im1 with the mask value as weight (Pillow's BLEND macro).
Dimensions are those of the background, the sizes being equal at every call
site of the source. -/
def compositeRGBA (im1 im2 : Img) (mask : LImg) : Img :=
  { width := im2.width, height := im2.height,
    pix := fun x y =>
      ⟨blendByte (mask.pix x y) (im2.pix x y).r (im1.pix x y).r,
       blendByte (mask.pix x y) (im2.pix x y).g (im1.pix x y).g,
       blendByte (mask.pix x y) (im2.pix x y).b (im1.pix x y).b,
       blendByte (mask.pix x y) (im2.pix x y).a (im1.pix x y).a⟩ }

/-- One pixel of Image.alpha_composite, following Pillow's AlphaComposite.c
exactly: a fully transparent source pixel copies the destination, otherwise the
fixed-point over operator with PRECISION_BITS = 7 is applied. -/
def alphaCompositePix (dst src : Pixel) : Pixel :=
  if src.a = 0 then dst
  else
    let blend := dst.a * (255 - src.a)
    let outa255 := src.a * 255 + blend
    let coef1 := src.a * 255 * 255 * 128 / outa255
    let coef2 := 255 * 128 - coef1
    ⟨shiftForDiv255 (src.r * coef1 + dst.r * coef2 + 128 * 128) >>> 7,
     shiftForDiv255 (src.g * coef1 + dst.g * coef2 + 128 * 128) >>> 7,
     shiftForDiv255 (src.b * coef1 + dst.b * coef2 + 128 * 128) >>> 7,
     shiftForDiv255 (outa255 + 128)⟩

/-- Image.alpha_composite of a source buffer over a destination buffer. -/
def alphaCompositeImg (dst src : Img) : Img :=
  { width := dst.width, height := dst.height,
    pix := fun x y => alphaCompositePix (dst.pix x y) (src.pix x y) }

/-- Image.paste of a single-channel buffer at an integer offset without a mask:
inside the paste rectangle the source replaces the destination, outside (and
wherever the rectangle leaves the destination) the destination pixel stays. -/
def pasteL (dst src : LImg) (ox oy : Int) : LImg :=
  { dst with pix := fun x y =>
      if ox ≤ (x : Int) ∧ (x : Int) < ox + src.width ∧ oy ≤ (y : Int) ∧ (y : Int) < oy + src.height then
        src.pix ((x : Int) - ox).toNat ((y : Int) - oy).toNat
      else dst.pix x y }

/-- Image.paste of an RGBA buffer with an RGBA mask at an integer offset: inside
the paste rectangle every channel is blended with the mask's alpha band as
weight (Pillow's BLEND macro); off-canvas source pixels are silently discarded
because only destination coordinates are ever produced. Both paste calls of the
source pass the pasted image itself as the mask. -/
def pasteRGBA (dst src mask : Img) (ox oy : Int) : Img :=
  { dst with pix := fun x y =>
      if ox ≤ (x : Int) ∧ (x : Int) < ox + src.width ∧ oy ≤ (y : Int) ∧ (y : Int) < oy + src.height then
        ⟨blendByte (mask.pix ((x : Int) - ox).toNat ((y : Int) - oy).toNat).a
           (dst.pix x y).r (src.pix ((x : Int) - ox).toNat ((y : Int) - oy).toNat).r,
         blendByte (mask.pix ((x : Int) - ox).toNat ((y : Int) - oy).toNat).a
           (dst.pix x y).g (src.pix ((x : Int) - ox).toNat ((y : Int) - oy).toNat).g,
         blendByte (mask.pix ((x : Int) - ox).toNat ((y : Int) - oy).toNat).a
           (dst.pix x y).b (src.pix ((x : Int) - ox).toNat ((y : Int) - oy).toNat).b,
         blendByte (mask.pix ((x : Int) - ox).toNat ((y : Int) - oy).toNat).a
           (dst.pix x y).a (src.pix ((x : Int) - ox).toNat ((y : Int) - oy).toNat).a⟩
      else dst.pix x y }

/-- Clamp an integer coordinate into the index range of a dimension. -/
def clampCoord (n : Nat) (i : Int) : Nat :=
  (min ((n : Int) - 1) (max 0 i)).toNat

/-- ImageFilter.MaxFilter(size): every pixel becomes the maximum over the
size by size window around it, sampled with edge-clamped coordinates (the rank
filter first expands the image by size / 2 on each side); the output keeps the
input dimensions. No claim depends on the edge handling. -/
def maxFilterL (size : Nat) (m : LImg) : LImg :=
  { m with pix := fun x y =>
      ((List.range size).foldl
        (fun acc dy =>
          (List.range size).foldl
            (fun acc2 dx =>
              max acc2 (m.pix (clampCoord m.width ((x : Int) + (dx : Int) - ((size / 2 : Nat) : Int)))
                (clampCoord m.height ((y : Int) + (dy : Int) - ((size / 2 : Nat) : Int)))))
            acc)
        0) }

/-- ImageFilter.SMOOTH: the 3 by 3 kernel (1,1,1,1,5,1,1,1,1) with scale 13,
truncated to a byte with clipping; Pillow copies the one-pixel border of the
image unchanged. The float arithmetic is modelled exactly over the rationals. -/
def smoothL (m : LImg) : LImg :=
  { m with pix := fun x y =>
      if 1 ≤ x ∧ x + 2 ≤ m.width ∧ 1 ≤ y ∧ y + 2 ≤ m.height then
        if (((m.pix (x-1) (y-1) + m.pix x (y-1) + m.pix (x+1) (y-1)
              + m.pix (x-1) y + 5 * m.pix x y + m.pix (x+1) y
              + m.pix (x-1) (y+1) + m.pix x (y+1) + m.pix (x+1) (y+1) : Nat) : ℚ) / 13) ≤ 0 then 0
        else if 255 ≤ (((m.pix (x-1) (y-1) + m.pix x (y-1) + m.pix (x+1) (y-1)
              + m.pix (x-1) y + 5 * m.pix x y + m.pix (x+1) y
              + m.pix (x-1) (y+1) + m.pix x (y+1) + m.pix (x+1) (y+1) : Nat) : ℚ) / 13) then 255
        else (⌊((m.pix (x-1) (y-1) + m.pix x (y-1) + m.pix (x+1) (y-1)
              + m.pix (x-1) y + 5 * m.pix x y + m.pix (x+1) y
              + m.pix (x-1) (y+1) + m.pix x (y+1) + m.pix (x+1) (y+1) : Nat) : ℚ) / 13⌋).toNat
      else m.pix x y }

/-- The texture as apply_texture hands it to compositing (src lines 21 to 27):
brightness is reduced by the fixed factor 0.7, then the alpha band is scaled by
the alpha parameter and put back. -/
def textureForCompositing (texture : Img) (alpha : ℚ) : Img :=
  putalpha (brightnessEnhance (7/10) texture)
    (pointScale alpha (splitAlpha (brightnessEnhance (7/10) texture)))

/-- The masked texture layer of apply_texture (src line 30): the adjusted
texture composited over a fully transparent canvas with the resized mask as
selector. -/
def texturedLayer (base_image texture_image : Img) (mask_image : LImg) (alpha : ℚ) : Img :=
  compositeRGBA (textureForCompositing (resizeRGBA texture_image base_image.width base_image.height) alpha)
    (newRGBA base_image.width base_image.height ⟨0, 0, 0, 0⟩)
    (resizeL mask_image base_image.width base_image.height)

/-- apply_texture from src/main.py lines 5 to 38. The convert calls are
identities of the embedding; the save call on line 36 is recorded in the
returned trace of output paths. -/
def apply_texture (base_image texture_image : Img) (mask_image : LImg) (output_path : String) (alpha : ℚ) :
    Img × List String :=
  (alphaCompositeImg base_image (texturedLayer base_image texture_image mask_image alpha), [output_path])

/-- border from src/main.py lines 97 to 144: expand the canvas by the stroke
radius on all sides, fill it with the border color, binarize the original alpha,
dilate it with a max filter of size 2 * radius + 1, smooth it, install it as the
canvas alpha, and paste the original image back at the offset (radius, radius)
using its own alpha as the paste mask. The radius is a natural number, which is
exactly the r at least 0 precondition of the spec. -/
def border (img : Img) (stroke_radius : Nat) (color : Pixel) : Img :=
  let new_w := img.width + 2 * stroke_radius
  let new_h := img.height + 2 * stroke_radius
  let stroke_image := newRGBA new_w new_h color
  let img_alpha := pointBinarize (splitAlpha img)
  let stroke_alpha := newL new_w new_h 0
  let stroke_alpha := pasteL stroke_alpha img_alpha (stroke_radius : Int) (stroke_radius : Int)
  let stroke_alpha := maxFilterL (2 * stroke_radius + 1) stroke_alpha
  let stroke_alpha := smoothL stroke_alpha
  let stroke_image := putalpha stroke_image stroke_alpha
  pasteRGBA stroke_image img img (stroke_radius : Int) (stroke_radius : Int)

/-- State threaded through create_pattern's grid walk: the working pattern
layer, the list of visited cell origins (an instrumented projection used to
state the grid coverage property), and the positions in the two random
streams. -/
structure StampState where
  layer : Img
  cells : List (Int × Int)
  aIdx : Nat
  jIdx : Nat

/-- random.randint(lo, hi) returns an integer in the closed interval
[lo, hi]; the ambient generator is modelled as a caller-supplied stream of
integers and each draw is the next stream value clamped into the requested
interval, so every value of the interval is reachable and no other value
occurs. -/
def clampDraw (lo hi v : Int) : Int :=
  max lo (min hi v)

/-- Parameters of create_pattern's grid walk, the external rotate-with-expand
primitive and the two random streams included. -/
structure StampCfg where
  rot : ℚ → Img → Img
  ang : Nat → ℚ
  jit : Nat → Int
  baseW : Nat
  baseH : Nat
  pattern : Img
  pszW : Nat
  pszH : Nat
  sx : Int
  sy : Int
  vx : Int
  vy : Int
  alpha : ℚ

/-- Body of create_pattern's inner loop at one grid cell (src lines 63 to 82):
draw a rotation angle, copy the resized tile and scale its alpha band by the
alpha parameter, rotate with expansion, center the rotated tile on the cell,
run the dead boundary-check branch (whose body is pass, so both arms leave the
layer unchanged), and paste the rotated tile with itself as the mask. -/
def stampCell (cfg : StampCfg) (x y : Int) (st : StampState) : StampState :=
  let random_angle := cfg.ang st.aIdx
  let pattern_with_alpha := putalpha cfg.pattern (pointScale cfg.alpha (splitAlpha cfg.pattern))
  let rotated_pattern := cfg.rot random_angle pattern_with_alpha
  let paste_x : Int := x - ((rotated_pattern.width / 2 : Nat) : Int)
  let paste_y : Int := y - ((rotated_pattern.height / 2 : Nat) : Int)
  let layer :=
    if paste_x < 0 ∨ paste_y < 0 ∨ (cfg.baseW : Int) < paste_x + (rotated_pattern.width : Int)
        ∨ (cfg.baseH : Int) < paste_y + (rotated_pattern.height : Int)
    then st.layer
    else st.layer
  { layer := pasteRGBA layer rotated_pattern rotated_pattern paste_x paste_y,
    cells := st.cells ++ [(x, y)],
    aIdx := st.aIdx + 1,
    jIdx := st.jIdx }

/-- stampCell with the dead boundary-check branch removed: the no-clipping
reading of the spec, against which the branch is shown to be dead code. -/
def stampCellNC (cfg : StampCfg) (x y : Int) (st : StampState) : StampState :=
  let random_angle := cfg.ang st.aIdx
  let pattern_with_alpha := putalpha cfg.pattern (pointScale cfg.alpha (splitAlpha cfg.pattern))
  let rotated_pattern := cfg.rot random_angle pattern_with_alpha
  let paste_x : Int := x - ((rotated_pattern.width / 2 : Nat) : Int)
  let paste_y : Int := y - ((rotated_pattern.height / 2 : Nat) : Int)
  { layer := pasteRGBA st.layer rotated_pattern rotated_pattern paste_x paste_y,
    cells := st.cells ++ [(x, y)],
    aIdx := st.aIdx + 1,
    jIdx := st.jIdx }

/-- The inner while loop of create_pattern over the y cursor (src lines 62 to
85): while y < base.height, stamp the cell and advance y by
pattern_size[1] + base_spacing[1] + randint(-variation, variation). The fuel
bounds the number of iterations; none models the unbounded python loop still
running when the fuel is exhausted. -/
def innerLoop (cfg : StampCfg) (cell : StampCfg → Int → Int → StampState → StampState) :
    Nat → Int → Int → StampState → Option StampState
  | 0, _, y, st => if y < (cfg.baseH : Int) then none else some st
  | fuel + 1, x, y, st =>
    if y < (cfg.baseH : Int) then
      let st1 := cell cfg x y st
      let delta_y : Int := cfg.sy + clampDraw (-cfg.vy) cfg.vy (cfg.jit st1.jIdx)
      innerLoop cfg cell fuel x (y + (cfg.pszH : Int) + delta_y) { st1 with jIdx := st1.jIdx + 1 }
    else some st

/-- The outer while loop of create_pattern over the x cursor (src lines 59 to
88), running the inner loop from y = 0 at every step and advancing x by
pattern_size[0] + base_spacing[0] + randint(-variation, variation). -/
def outerLoop (cfg : StampCfg) (cell : StampCfg → Int → Int → StampState → StampState) :
    Nat → Int → StampState → Option StampState
  | 0, x, st => if x < (cfg.baseW : Int) then none else some st
  | fuel + 1, x, st =>
    if x < (cfg.baseW : Int) then
      (innerLoop cfg cell cfg.baseH x 0 st).bind fun st1 =>
        let delta_x : Int := cfg.sx + clampDraw (-cfg.vx) cfg.vx (cfg.jit st1.jIdx)
        outerLoop cfg cell fuel (x + (cfg.pszW : Int) + delta_x) { st1 with jIdx := st1.jIdx + 1 }
    else some st

/-- The whole grid walk of create_pattern, starting from a fully transparent
layer of the base's size with both cursors at 0. A fuel of base.width outer
iterations and base.height inner iterations per column is enough whenever every
step advances the cursor, which the termination theorem proves. -/
def stampGridWith (cfg : StampCfg) (cell : StampCfg → Int → Int → StampState → StampState) :
    Option StampState :=
  outerLoop cfg cell cfg.baseW 0
    { layer := newRGBA cfg.baseW cfg.baseH ⟨0, 0, 0, 0⟩, cells := [], aIdx := 0, jIdx := 0 }

/-- The grid-walk configuration create_pattern builds from its arguments (src
lines 50 to 57): the tile is resized to pattern_size once up front. -/
def patternCfg (rot : ℚ → Img → Img) (ang : Nat → ℚ) (jit : Nat → Int)
    (base_image pattern_image : Img) (pattern_size : Nat × Nat)
    (base_spacing spacing_variation : Int × Int) (alpha : ℚ) : StampCfg :=
  { rot := rot, ang := ang, jit := jit,
    baseW := base_image.width, baseH := base_image.height,
    pattern := resizeRGBA pattern_image pattern_size.1 pattern_size.2,
    pszW := pattern_size.1, pszH := pattern_size.2,
    sx := base_spacing.1, sy := base_spacing.2,
    vx := spacing_variation.1, vy := spacing_variation.2,
    alpha := alpha }

/-- The tail of create_pattern after the grid walk (src lines 90 to 94): the
stamped layer is composited against a transparent canvas with the resized mask
as selector, alpha-composited over the base, and saved. -/
def patternCompose (base : Img) (mask : LImg) (output_path : String) (st : StampState) :
    Img × List String :=
  (alphaCompositeImg base (compositeRGBA st.layer (newRGBA base.width base.height ⟨0, 0, 0, 0⟩) mask),
   [output_path])

/-- create_pattern parametrized by the cell body, so that the variant without
the dead boundary-check branch is literally the same walk with the other cell
body. -/
def create_pattern_with (cell : StampCfg → Int → Int → StampState → StampState)
    (rot : ℚ → Img → Img) (ang : Nat → ℚ) (jit : Nat → Int)
    (base_image pattern_image : Img) (mask_image : LImg) (output_path : String)
    (pattern_size : Nat × Nat) (base_spacing spacing_variation : Int × Int) (alpha : ℚ) :
    Option (Img × List String) :=
  (stampGridWith (patternCfg rot ang jit base_image pattern_image pattern_size base_spacing spacing_variation alpha) cell).map
    (patternCompose base_image (resizeL mask_image base_image.width base_image.height) output_path)

/-- create_pattern from src/main.py lines 40 to 94, with the dead boundary
check branch of lines 77 to 80 included in the cell body. The result is none
exactly when the while loops do not finish within the given fuel; since that
much fuel suffices whenever every step advances its cursor, none models
nontermination of the unbounded python loops. -/
def create_pattern (rot : ℚ → Img → Img) (ang : Nat → ℚ) (jit : Nat → Int)
    (base_image pattern_image : Img) (mask_image : LImg) (output_path : String)
    (pattern_size : Nat × Nat) (base_spacing spacing_variation : Int × Int) (alpha : ℚ) :
    Option (Img × List String) :=
  create_pattern_with stampCell rot ang jit base_image pattern_image mask_image output_path
    pattern_size base_spacing spacing_variation alpha

/-- create_pattern with the dead boundary-check branch removed, the reading the
spec prescribes; the equivalence theorem shows it agrees with create_pattern on
every input. -/
def create_pattern_noclip (rot : ℚ → Img → Img) (ang : Nat → ℚ) (jit : Nat → Int)
    (base_image pattern_image : Img) (mask_image : LImg) (output_path : String)
    (pattern_size : Nat × Nat) (base_spacing spacing_variation : Int × Int) (alpha : ℚ) :
    Option (Img × List String) :=
  create_pattern_with stampCellNC rot ang jit base_image pattern_image mask_image output_path
    pattern_size base_spacing spacing_variation alpha

/-- The cell origins visited by create_pattern's grid walk, an instrumented
projection of the very same loops. -/
def create_pattern_cells (rot : ℚ → Img → Img) (ang : Nat → ℚ) (jit : Nat → Int)
    (base_image pattern_image : Img) (pattern_size : Nat × Nat)
    (base_spacing spacing_variation : Int × Int) (alpha : ℚ) : Option (List (Int × Int)) :=
  (stampGridWith (patternCfg rot ang jit base_image pattern_image pattern_size base_spacing spacing_variation alpha) stampCell).map
    StampState.cells

/-- Identity rotation primitive used by concrete witnesses. -/
def cRotId : ℚ → Img → Img := fun _ img => img

/-- Constant-zero angle stream used by concrete witnesses. -/
def cZeroQ : Nat → ℚ := fun _ => 0

/-- Constant-zero jitter stream used by concrete witnesses. -/
def cZeroZ : Nat → Int := fun _ => 0

/-- Opaque white border color used by concrete witnesses. -/
def cWhite : Pixel := ⟨255, 255, 255, 255⟩

/-- Concrete 2 by 2 base buffer used by witnesses. -/
def cBase : Img := ⟨2, 2, fun _ _ => ⟨10, 20, 30, 200⟩⟩

/-- Concrete 2 by 2 texture buffer used by witnesses. -/
def cTex : Img := ⟨2, 2, fun _ _ => ⟨50, 60, 70, 80⟩⟩

/-- Concrete 1 by 1 tile buffer used by witnesses. -/
def cPat : Img := ⟨1, 1, fun _ _ => ⟨9, 8, 7, 6⟩⟩

/-- Concrete all-zero mask used by witnesses. -/
def cMaskZero : LImg := ⟨2, 2, fun _ _ => 0⟩

/-- Concrete 1 by 1 image with a half-transparent pixel, the counterexample
input of the interior claim. -/
def cImgHalf : Img := ⟨1, 1, fun _ _ => ⟨0, 0, 0, 128⟩⟩

/-- Concrete 1 by 1 image whose pixel has full alpha, the witness input of the
amended interior claim. -/
def cImgFull : Img := ⟨1, 1, fun _ _ => ⟨5, 6, 7, 255⟩⟩

/-- Concrete texture output path used by witnesses. -/
def cPathT : String := "sock_with_texture.png"

/-- Concrete pattern output path used by witnesses. -/
def cPathP : String := "sock_with_pattern.png"

/-- Multiplying by mask weight 0 under MULDIV255 gives 0. -/
theorem muldiv255_zero_right (a : Nat) : muldiv255 a 0 = 0 := by
  simp only [muldiv255, Nat.mul_zero, Nat.zero_add]
  decide

set_option maxRecDepth 4096 in
/-- MULDIV255 with weight 255 is the identity on bytes. -/
theorem muldiv255_full : ∀ a, a < 256 → muldiv255 a 255 = a := by decide

/-- Blending a zero destination with mask weight 0 gives 0 whatever the source. -/
theorem blendByte_zero (s : Nat) : blendByte 0 0 s = 0 := by
  simp only [blendByte, Nat.sub_zero, muldiv255_zero_right]
  decide

/-- Blending with full mask weight returns the source byte unchanged. -/
theorem blendByte_full (d s : Nat) (hs : s ≤ 255) : blendByte 255 d s = s := by
  simp only [blendByte, Nat.sub_self, muldiv255_zero_right]
  rw [muldiv255_full s (by omega)]
  omega

/-- Compositing over a transparent canvas where the mask is 0 yields the fully
transparent pixel. -/
theorem compositeRGBA_mask_zero (im1 im2 : Img) (mask : LImg) (x y : Nat)
    (hm : mask.pix x y = 0) (h2 : im2.pix x y = ⟨0, 0, 0, 0⟩) :
    (compositeRGBA im1 im2 mask).pix x y = ⟨0, 0, 0, 0⟩ := by
  show (⟨blendByte (mask.pix x y) (im2.pix x y).r (im1.pix x y).r,
         blendByte (mask.pix x y) (im2.pix x y).g (im1.pix x y).g,
         blendByte (mask.pix x y) (im2.pix x y).b (im1.pix x y).b,
         blendByte (mask.pix x y) (im2.pix x y).a (im1.pix x y).a⟩ : Pixel) = ⟨0, 0, 0, 0⟩
  rw [hm, h2]
  simp [blendByte_zero]

/-- Alpha compositing a fully transparent source pixel returns the destination
pixel bit for bit. -/
theorem alphaComposite_src_clear (d : Pixel) : alphaCompositePix d ⟨0, 0, 0, 0⟩ = d := by
  simp [alphaCompositePix]

/-- Claim C1: for every RGBA image, radius r at least 0 and color, the buffer
returned by border has width img.width + 2 r and height img.height + 2 r. -/
theorem C1_border_growth (img : Img) (stroke_radius : Nat) (color : Pixel) :
    (border img stroke_radius color).width = img.width + 2 * stroke_radius ∧
    (border img stroke_radius color).height = img.height + 2 * stroke_radius :=
  ⟨rfl, rfl⟩

/-- Claim C8, counterexample: apply_texture does perform a file write, namely
the save of the composited buffer to output_path on src line 36, so its trace
of written paths is not empty. -/
theorem C8_side_effect_counterexample :
    (apply_texture cBase cTex cMaskZero cPathT (1/2)).2 ≠ [] :=
  fun h => List.cons_ne_nil cPathT [] h

/-- Claim C8, amended: apply_texture does not mutate its input buffers and
returns the composited buffer, but it writes exactly one file, saving the
result to output_path. In the embedding buffers are immutable values and the
write trace is exactly the singleton output_path. -/
theorem C8_save_trace (base_image texture_image : Img) (mask_image : LImg)
    (output_path : String) (alpha : ℚ) :
    (apply_texture base_image texture_image mask_image output_path alpha).2 = [output_path] :=
  rfl

/-- Interpolating a byte with itself under ImagingBlend returns it unchanged. -/
theorem blendChannel_self (f : ℚ) (c : Nat) (hc : c ≤ 255) : blendChannel f c c = c := by
  unfold blendChannel
  simp only [sub_self, mul_zero, add_zero]
  by_cases h1 : (c : ℚ) ≤ 0
  · rw [if_pos h1]
    have hc0 : c = 0 := by exact_mod_cast le_antisymm h1 (by positivity)
    omega
  · rw [if_neg h1]
    by_cases h2 : (255 : ℚ) ≤ (c : ℚ)
    · rw [if_pos h2]
      have : (255 : Nat) ≤ c := by exact_mod_cast h2
      omega
    · rw [if_neg h2]
      rw [Int.floor_natCast]
      exact Int.toNat_natCast c

/-- Claim C4: the per-pixel alpha channel of the texture layer handed to
compositing in apply_texture equals the (resized) texture's own per-pixel alpha
scaled by the alpha parameter: the brightness pre-adjustment with factor 0.7
touches only the color channels and leaves the alpha band unchanged, and the
mask plays no role at this stage. -/
theorem C4_texture_alpha_scaling (texture : Img) (alpha : ℚ) (x y : Nat)
    (ha : (texture.pix x y).a ≤ 255) :
    ((textureForCompositing texture alpha).pix x y).a = scaleByte alpha (texture.pix x y).a := by
  show scaleByte alpha ((brightnessEnhance (7/10) texture).pix x y).a
      = scaleByte alpha (texture.pix x y).a
  rw [show ((brightnessEnhance (7/10) texture).pix x y).a
      = blendChannel (7/10) (texture.pix x y).a (texture.pix x y).a from rfl]
  rw [blendChannel_self _ _ ha]

/-- Witness for C4 at a concrete texture pixel with alpha value 80 and
parameter one half. -/
theorem C4_texture_alpha_scaling_witness :
    (cTex.pix 0 0).a ≤ 255 ∧
      ((textureForCompositing cTex (1/2)).pix 0 0).a = scaleByte (1/2) (cTex.pix 0 0).a :=
  ⟨by decide, C4_texture_alpha_scaling cTex (1/2) 0 0 (by decide)⟩

/-- Claim C3: wherever the resized mask is 0, the output pixel of apply_texture
is bit-identical, on all four channels, to the corresponding base pixel. -/
theorem C3_mask_gating (base_image texture_image : Img) (mask_image : LImg)
    (output_path : String) (alpha : ℚ) (x y : Nat)
    (hm : (resizeL mask_image base_image.width base_image.height).pix x y = 0) :
    (apply_texture base_image texture_image mask_image output_path alpha).1.pix x y
      = base_image.pix x y := by
  have h1 := compositeRGBA_mask_zero
    (textureForCompositing (resizeRGBA texture_image base_image.width base_image.height) alpha)
    (newRGBA base_image.width base_image.height ⟨0, 0, 0, 0⟩)
    (resizeL mask_image base_image.width base_image.height) x y hm rfl
  show alphaCompositePix (base_image.pix x y)
      ((compositeRGBA
        (textureForCompositing (resizeRGBA texture_image base_image.width base_image.height) alpha)
        (newRGBA base_image.width base_image.height ⟨0, 0, 0, 0⟩)
        (resizeL mask_image base_image.width base_image.height)).pix x y)
    = base_image.pix x y
  rw [h1, alphaComposite_src_clear]

/-- Witness for C3 on a concrete base, texture and all-zero mask. -/
theorem C3_mask_gating_witness :
    (resizeL cMaskZero cBase.width cBase.height).pix 0 0 = 0 ∧
      (apply_texture cBase cTex cMaskZero cPathT (1/2)).1.pix 0 0 = cBase.pix 0 0 :=
  ⟨by decide, C3_mask_gating cBase cTex cMaskZero cPathT (1/2) 0 0 (by decide)⟩

/-- Inside the paste rectangle, pasteRGBA produces the mask-weighted channel
blend at the translated source coordinates. -/
theorem pasteRGBA_in (dst src mask : Img) (ox oy : Int) (x y : Nat)
    (h1 : ox ≤ (x : Int)) (h2 : (x : Int) < ox + src.width)
    (h3 : oy ≤ (y : Int)) (h4 : (y : Int) < oy + src.height) :
    (pasteRGBA dst src mask ox oy).pix x y =
      ⟨blendByte (mask.pix ((x : Int) - ox).toNat ((y : Int) - oy).toNat).a
         (dst.pix x y).r (src.pix ((x : Int) - ox).toNat ((y : Int) - oy).toNat).r,
       blendByte (mask.pix ((x : Int) - ox).toNat ((y : Int) - oy).toNat).a
         (dst.pix x y).g (src.pix ((x : Int) - ox).toNat ((y : Int) - oy).toNat).g,
       blendByte (mask.pix ((x : Int) - ox).toNat ((y : Int) - oy).toNat).a
         (dst.pix x y).b (src.pix ((x : Int) - ox).toNat ((y : Int) - oy).toNat).b,
       blendByte (mask.pix ((x : Int) - ox).toNat ((y : Int) - oy).toNat).a
         (dst.pix x y).a (src.pix ((x : Int) - ox).toNat ((y : Int) - oy).toNat).a⟩ := by
  show (if ox ≤ (x : Int) ∧ (x : Int) < ox + src.width ∧ oy ≤ (y : Int) ∧ (y : Int) < oy + src.height
      then _ else dst.pix x y) = _
  rw [if_pos ⟨h1, h2, h3, h4⟩]

/-- Blending any destination pixel towards a valid source pixel of full alpha,
with that alpha as the mask weight, returns the source pixel exactly. -/
theorem pasteBlend_full_alpha (d s : Pixel) (hs : s.Valid) (ha : s.a = 255) :
    (⟨blendByte s.a d.r s.r, blendByte s.a d.g s.g,
      blendByte s.a d.b s.b, blendByte s.a d.a s.a⟩ : Pixel) = s := by
  obtain ⟨sr, sg, sb, sa⟩ := s
  obtain ⟨hr, hg, hb, hA⟩ := hs
  simp only at ha
  subst ha
  simp only [Pixel.mk.injEq]
  exact ⟨blendByte_full _ _ hr, blendByte_full _ _ hg, blendByte_full _ _ hb,
    blendByte_full _ _ (by omega)⟩

/-- Claim C5, counterexample: the paste-back step of border is a blend, not a
copy, so a source pixel with alpha 128 (which is greater than 0) is not
reproduced: on the 1 by 1 image with pixel (0,0,0,128), radius 1 and an
opaque white border color, the output pixel at offset (1,1) differs from the
original pixel. -/
theorem C5_interior_counterexample :
    0 < (cImgHalf.pix 0 0).a ∧ (border cImgHalf 1 cWhite).pix 1 1 ≠ cImgHalf.pix 0 0 := by
  constructor
  · decide
  · decide

/-- Claim C5, amended: in border's output, the sub-region at offset
(radius, radius) reproduces the original pixels exactly wherever the original
alpha is 255 (fully opaque); for partially transparent pixels the paste-back
blends against the border canvas. -/
theorem C5_interior_amended (img : Img) (stroke_radius : Nat) (color : Pixel) (x y : Nat)
    (hx : x < img.width) (hy : y < img.height)
    (hv : (img.pix x y).Valid) (ha : (img.pix x y).a = 255) :
    (border img stroke_radius color).pix (x + stroke_radius) (y + stroke_radius) = img.pix x y := by
  show (pasteRGBA
      (putalpha (newRGBA (img.width + 2 * stroke_radius) (img.height + 2 * stroke_radius) color)
        (smoothL (maxFilterL (2 * stroke_radius + 1)
          (pasteL (newL (img.width + 2 * stroke_radius) (img.height + 2 * stroke_radius) 0)
            (pointBinarize (splitAlpha img)) (stroke_radius : Int) (stroke_radius : Int)))))
      img img (stroke_radius : Int) (stroke_radius : Int)).pix
      (x + stroke_radius) (y + stroke_radius) = img.pix x y
  rw [pasteRGBA_in _ _ _ _ _ _ _ (by push_cast; omega) (by push_cast; omega)
    (by push_cast; omega) (by push_cast; omega)]
  have hsx : (((x + stroke_radius : Nat) : Int) - (stroke_radius : Int)).toNat = x := by
    push_cast
    omega
  have hsy : (((y + stroke_radius : Nat) : Int) - (stroke_radius : Int)).toNat = y := by
    push_cast
    omega
  rw [hsx, hsy]
  exact pasteBlend_full_alpha _ _ hv ha

/-- Witness for the amended C5 on a concrete 1 by 1 fully opaque image with
radius 1. -/
theorem C5_interior_amended_witness :
    ((cImgFull.pix 0 0).a = 255 ∧ 0 < cImgFull.width) ∧
      (border cImgFull 1 cWhite).pix 1 1 = cImgFull.pix 0 0 :=
  ⟨⟨by decide, by decide⟩,
    C5_interior_amended cImgFull 1 cWhite 0 0 (by decide) (by decide) (by decide) (by decide)⟩

/-- Claim C7: the boundary check of src lines 77 to 80 is dead code. Both of
its arms leave the working layer unchanged, so create_pattern computes the same
function as the variant with the branch removed, on every input and for every
rotation primitive and random stream: every rotated tile is pasted at its
computed origin and off-canvas pixels are discarded by the paste itself. -/
theorem C7_dead_boundary_check (rot : ℚ → Img → Img) (ang : Nat → ℚ) (jit : Nat → Int)
    (base_image pattern_image : Img) (mask_image : LImg) (output_path : String)
    (pattern_size : Nat × Nat) (base_spacing spacing_variation : Int × Int) (alpha : ℚ) :
    create_pattern rot ang jit base_image pattern_image mask_image output_path
        pattern_size base_spacing spacing_variation alpha
      = create_pattern_noclip rot ang jit base_image pattern_image mask_image output_path
        pattern_size base_spacing spacing_variation alpha := by
  have hcell : stampCell = stampCellNC := by
    funext cfg x y st
    simp [stampCell, stampCellNC]
  simp only [create_pattern, create_pattern_noclip, hcell]

set_option maxRecDepth 100000 in
set_option maxHeartbeats 4000000 in
/-- Claim C6: with the spacing jitter draws stubbed to 0 (and whatever the
rotation primitive and angle stream, which do not influence the cursors), the
grid walk of create_pattern on a 500 by 500 base with tile size (100,100), base
spacing (50,50) and jitter range (0,0) visits exactly the sixteen points whose
coordinates lie in 0, 150, 300, 450: both cursors start at 0 and advance by
tile size plus spacing, 150, while strictly below the base dimension. -/
theorem C6_grid_coverage (bpix : Nat → Nat → Pixel) (rot : ℚ → Img → Img)
    (pattern_image : Img) (alpha : ℚ) :
    create_pattern_cells rot (fun _ => 0) (fun _ => 0) ⟨500, 500, bpix⟩ pattern_image
        (100, 100) (50, 50) (0, 0) alpha
      = some [(0, 0), (0, 150), (0, 300), (0, 450),
              (150, 0), (150, 150), (150, 300), (150, 450),
              (300, 0), (300, 150), (300, 300), (300, 450),
              (450, 0), (450, 150), (450, 300), (450, 450)] :=
  rfl

/-- Claim C2: apply_texture returns a buffer with exactly the base's width and
height, and whenever create_pattern returns a buffer it also has exactly its
base's width and height, whatever the sizes of the texture, tile and mask
inputs. -/
theorem C2_dimension_preservation
    (base_image texture_image : Img) (mask_image : LImg) (output_path : String) (alpha : ℚ)
    (rot : ℚ → Img → Img) (ang : Nat → ℚ) (jit : Nat → Int)
    (base2 pattern_image : Img) (mask2 : LImg) (path2 : String)
    (pattern_size : Nat × Nat) (base_spacing spacing_variation : Int × Int) (alpha2 : ℚ) :
    ((apply_texture base_image texture_image mask_image output_path alpha).1.width
        = base_image.width
      ∧ (apply_texture base_image texture_image mask_image output_path alpha).1.height
        = base_image.height)
    ∧ ∀ out, create_pattern rot ang jit base2 pattern_image mask2 path2
        pattern_size base_spacing spacing_variation alpha2 = some out →
        out.1.width = base2.width ∧ out.1.height = base2.height := by
  refine ⟨⟨rfl, rfl⟩, ?_⟩
  intro out h
  simp only [create_pattern, create_pattern_with] at h
  cases hsg : stampGridWith (patternCfg rot ang jit base2 pattern_image
      pattern_size base_spacing spacing_variation alpha2) stampCell with
  | none =>
    rw [hsg] at h
    simp at h
  | some st =>
    rw [hsg] at h
    replace h : some (patternCompose base2
        (resizeL mask2 base2.width base2.height) path2 st) = some out := h
    injection h with h2
    subst h2
    exact ⟨rfl, rfl⟩

/-- Witness for C2: a concrete create_pattern run on the 2 by 2 base returns a
buffer, and the theorem yields that its width is the base's. -/
theorem C2_dimension_preservation_witness :
    ((create_pattern cRotId cZeroQ cZeroZ cBase cPat cMaskZero cPathP
        (1, 1) (0, 0) (0, 0) 1).get (by rfl)).1.width = cBase.width :=
  ((C2_dimension_preservation cBase cTex cMaskZero cPathT (1/2) cRotId cZeroQ cZeroZ
      cBase cPat cMaskZero cPathP (1, 1) (0, 0) (0, 0) 1).2
    _ (Option.some_get _).symm).1

/-- A clamped randint draw never falls below the lower end of the interval. -/
theorem clampDraw_lower (lo hi v : Int) : lo ≤ clampDraw lo hi v :=
  le_max_left lo _

/-- The inner loop of the grid walk finishes within its fuel as soon as every
step advances the y cursor by at least 1, which the geometry hypothesis
guarantees. -/
theorem innerLoop_isSome (cfg : StampCfg) (cell : StampCfg → Int → Int → StampState → StampState)
    (hstep : 1 ≤ (cfg.pszH : Int) + cfg.sy - cfg.vy) :
    ∀ (fuel : Nat) (x y : Int) (st : StampState), (cfg.baseH : Int) ≤ y + fuel →
      (innerLoop cfg cell fuel x y st).isSome = true := by
  intro fuel
  induction fuel with
  | zero =>
    intro x y st h
    simp only [innerLoop]
    rw [if_neg (by omega)]
    rfl
  | succ f ih =>
    intro x y st h
    simp only [innerLoop]
    by_cases hy : y < (cfg.baseH : Int)
    · rw [if_pos hy]
      exact ih x _ _ (by
        have hc := clampDraw_lower (-cfg.vy) cfg.vy (cfg.jit (cell cfg x y st).jIdx)
        push_cast at h ⊢
        omega)
    · rw [if_neg hy]
      rfl

/-- The outer loop of the grid walk finishes within its fuel as soon as every
step advances the x cursor by at least 1 and the inner loop finishes. -/
theorem outerLoop_isSome (cfg : StampCfg) (cell : StampCfg → Int → Int → StampState → StampState)
    (hx : 1 ≤ (cfg.pszW : Int) + cfg.sx - cfg.vx)
    (hy : 1 ≤ (cfg.pszH : Int) + cfg.sy - cfg.vy) :
    ∀ (fuel : Nat) (x : Int) (st : StampState), (cfg.baseW : Int) ≤ x + fuel →
      (outerLoop cfg cell fuel x st).isSome = true := by
  intro fuel
  induction fuel with
  | zero =>
    intro x st h
    simp only [outerLoop]
    rw [if_neg (by omega)]
    rfl
  | succ f ih =>
    intro x st h
    simp only [outerLoop]
    by_cases hxl : x < (cfg.baseW : Int)
    · rw [if_pos hxl]
      have hin := innerLoop_isSome cfg cell hy cfg.baseH x 0 st (by omega)
      obtain ⟨st1, hst1⟩ := Option.isSome_iff_exists.mp hin
      rw [hst1]
      exact ih _ _ (by
        have hc := clampDraw_lower (-cfg.vx) cfg.vx (cfg.jit st1.jIdx)
        push_cast at h ⊢
        omega)
    · rw [if_neg hxl]
      rfl

/-- The whole grid walk finishes whenever both cursors advance at every step. -/
theorem stampGridWith_isSome (cfg : StampCfg) (cell : StampCfg → Int → Int → StampState → StampState)
    (hx : 1 ≤ (cfg.pszW : Int) + cfg.sx - cfg.vx)
    (hy : 1 ≤ (cfg.pszH : Int) + cfg.sy - cfg.vy) :
    (stampGridWith cfg cell).isSome = true :=
  outerLoop_isSome cfg cell hx hy cfg.baseW 0 _ (by omega)

/-- Claim C9: for every base with positive dimensions, whenever
pattern_size + base_spacing - spacing_variation is positive on both axes, the
nested grid-walk loops of create_pattern terminate for every sequence of random
draws: each cursor strictly increases at every step, so width (resp. height)
iterations of fuel suffice and the run returns a buffer. -/
theorem C9_grid_termination (rot : ℚ → Img → Img) (ang : Nat → ℚ) (jit : Nat → Int)
    (base_image pattern_image : Img) (mask_image : LImg) (output_path : String)
    (pattern_size : Nat × Nat) (base_spacing spacing_variation : Int × Int) (alpha : ℚ)
    (hw : 0 < base_image.width) (hh : 0 < base_image.height)
    (hx : 1 ≤ (pattern_size.1 : Int) + base_spacing.1 - spacing_variation.1)
    (hy : 1 ≤ (pattern_size.2 : Int) + base_spacing.2 - spacing_variation.2) :
    (create_pattern rot ang jit base_image pattern_image mask_image output_path
        pattern_size base_spacing spacing_variation alpha).isSome = true := by
  have hg := stampGridWith_isSome
    (patternCfg rot ang jit base_image pattern_image pattern_size base_spacing spacing_variation alpha)
    stampCell hx hy
  simp only [create_pattern, create_pattern_with]
  obtain ⟨st, hst⟩ := Option.isSome_iff_exists.mp hg
  rw [hst]
  rfl

/-- Witness for C9 on a concrete 2 by 2 base with unit tile and no spacing. -/
theorem C9_grid_termination_witness :
    (0 < cBase.width ∧ 1 ≤ ((1 : Nat) : Int) + 0 - 0) ∧
      (create_pattern cRotId cZeroQ cZeroZ cBase cPat cMaskZero cPathP
        (1, 1) (0, 0) (0, 0) 1).isSome = true :=
  ⟨⟨by decide, by decide⟩,
    C9_grid_termination cRotId cZeroQ cZeroZ cBase cPat cMaskZero cPathP
      (1, 1) (0, 0) (0, 0) 1 (by decide) (by decide) (by decide) (by decide)⟩

/-- Claim C10: whenever create_pattern returns a buffer, every pixel where the
resized mask is 0 is bit-identical to the corresponding base pixel, whatever
the tile, geometry, rotation primitive and random draws: the stamped layer is
erased there by the masked composite before the final alpha compositing. -/
theorem C10_pattern_mask_gating (rot : ℚ → Img → Img) (ang : Nat → ℚ) (jit : Nat → Int)
    (base_image pattern_image : Img) (mask_image : LImg) (output_path : String)
    (pattern_size : Nat × Nat) (base_spacing spacing_variation : Int × Int) (alpha : ℚ)
    (out : Img × List String) (x y : Nat)
    (h : create_pattern rot ang jit base_image pattern_image mask_image output_path
        pattern_size base_spacing spacing_variation alpha = some out)
    (hm : (resizeL mask_image base_image.width base_image.height).pix x y = 0) :
    out.1.pix x y = base_image.pix x y := by
  simp only [create_pattern, create_pattern_with] at h
  cases hsg : stampGridWith (patternCfg rot ang jit base_image pattern_image
      pattern_size base_spacing spacing_variation alpha) stampCell with
  | none =>
    rw [hsg] at h
    simp at h
  | some st =>
    rw [hsg] at h
    replace h : some (patternCompose base_image
        (resizeL mask_image base_image.width base_image.height) output_path st) = some out := h
    injection h with h2
    subst h2
    have h1 := compositeRGBA_mask_zero st.layer
      (newRGBA base_image.width base_image.height ⟨0, 0, 0, 0⟩)
      (resizeL mask_image base_image.width base_image.height) x y hm rfl
    show alphaCompositePix (base_image.pix x y)
        ((compositeRGBA st.layer (newRGBA base_image.width base_image.height ⟨0, 0, 0, 0⟩)
          (resizeL mask_image base_image.width base_image.height)).pix x y)
      = base_image.pix x y
    rw [h1, alphaComposite_src_clear]

/-- Witness for C10 on a concrete run with an all-zero mask. -/
theorem C10_pattern_mask_gating_witness :
    (resizeL cMaskZero cBase.width cBase.height).pix 0 0 = 0 ∧
      ((create_pattern cRotId cZeroQ cZeroZ cBase cPat cMaskZero cPathP
        (1, 1) (0, 0) (0, 0) 1).get (by rfl)).1.pix 0 0 = cBase.pix 0 0 :=
  ⟨by decide,
    C10_pattern_mask_gating cRotId cZeroQ cZeroZ cBase cPat cMaskZero cPathP
      (1, 1) (0, 0) (0, 0) 1 _ 0 0 (Option.some_get _).symm (by decide)⟩
